import Mathlib

/-!
Verification of the NewsGroupingApp grouping core against its specification.

The definitions below are shallow embeddings of the Python source:

* `calculate_article_to_group_similarity` embeds
  `src/enhanced_grouping.py` (similarity scorer with temporal, source and
  core-entity adjustments).
* `add_article_to_group` embeds the membership write primitive of
  `src/enhanced_grouping.py`.
* `insert_entity` embeds `src/news_grouping_app/db/database.py`.
* `calculateDynamicThreshold` and `processDecision` embed
  `src/news_grouping_app/analysis/two_phase_grouping.py`.
* `mergePass` embeds the pair loop of `src/analysis/group_merging.py`.
* `approximate_tokens` embeds `src/utils.py`.

Machine reals (Python floats) are modelled as rationals; timestamps are
modelled as rational numbers of seconds (the source parses date strings
with pandas and works with second differences); unparseable or absent
dates are modelled as `none`.  Python dictionaries built by comprehension
keep the last value written for a key, which the embedding mirrors
explicitly.  Python string truthiness is modelled as being distinct from
the empty string.
-/

set_option autoImplicit false

namespace NewsGrouping

/-- One entry of the `primary_entities` list of an article signature.
Optional fields mirror the `dict.get` defaults used by the source. -/
structure ArticleEntitySig where
  entity_id : Nat
  relevance_score : Option ℚ
  entity_type : Option String
  deriving Repr, DecidableEq

/-- One entry of the `primary_entities` list of a group signature. -/
structure GroupEntitySig where
  entity_id : Nat
  avg_relevance : Option ℚ
  frequency : Option ℚ
  deriving Repr, DecidableEq

/-- One entry of the `companies` list of a group signature
(a dict with keys `company_name` and `frequency`). -/
structure GroupCompanySig where
  company_name : String
  frequency : ℚ
  deriving Repr, DecidableEq

/-- One entry of the `cves` list of a group signature. -/
structure GroupCveSig where
  cve_id : String
  frequency : ℚ
  deriving Repr, DecidableEq

/-- One entry of the `events` list of a group signature. -/
structure GroupEventSig where
  event_name : String
  frequency : ℚ
  deriving Repr, DecidableEq

/-- Article signature as consumed by the similarity scorer.  Article
events are the `event_name` values of the event dicts; the empty string
stands for a missing or falsy name. -/
structure ArticleSignature where
  article_id : Nat
  published_date : Option ℚ
  source : Option String
  primary_entities : List ArticleEntitySig
  companies : List String
  cves : List String
  events : List String
  deriving Repr, DecidableEq

/-- Group signature as consumed by the similarity scorer. -/
structure GroupSignature where
  group_id : Nat
  latest_published_date : Option ℚ
  member_sources : List String
  primary_entities : List GroupEntitySig
  companies : List GroupCompanySig
  cves : List GroupCveSig
  events : List GroupEventSig
  deriving Repr, DecidableEq

/-- Result record of the similarity scorer, mirroring the keys of the
Python results dictionary. -/
structure SimilarityResults where
  entity_similarity : ℚ
  company_similarity : ℚ
  cve_similarity : ℚ
  event_similarity : ℚ
  composite_score : ℚ
  temporal_adjustment : ℚ
  source_bonus : ℚ
  core_entity_bonus : ℚ
  base_composite_score : ℚ
  deriving Repr, DecidableEq

/-- Python builtin `min` on two floats, written with an `if` so that the
kernel can evaluate it on concrete rationals. -/
def pyMin (a b : ℚ) : ℚ := if a ≤ b then a else b

/-- Python builtin `max` on two floats. -/
def pyMax (a b : ℚ) : ℚ := if b ≤ a then a else b

theorem pyMin_eq_min (a b : ℚ) : pyMin a b = min a b := (min_def a b).symm

theorem pyMax_eq_max (a b : ℚ) : pyMax a b = max a b := by
  unfold pyMax
  rcases le_total a b with h | h
  · rw [max_eq_right h]
    rcases eq_or_lt_of_le h with rfl | hlt
    · simp
    · rw [if_neg (not_le.mpr hlt)]
  · rw [max_eq_left h, if_pos h]

/-- Lookup in the Python dict comprehension
`\x7be.entity_id: e.get("relevance_score", 0.7) for e in primary_entities\x7d`:
a later entry for the same id overwrites an earlier one, so the last
matching element wins. -/
def articleRelLookup (l : List ArticleEntitySig) (id : Nat) : Option ℚ :=
  (l.reverse.find? (fun e => e.entity_id == id)).map
    (fun e => e.relevance_score.getD (7/10))

/-- Python dict built from a list of group events: the last entry for a
given `event_name` wins.  Keeps, for each name, its final entry. -/
def dedupEventsLast : List GroupEventSig → List GroupEventSig
  | [] => []
  | e :: rest =>
    if rest.any (fun x => x.event_name == e.event_name) then dedupEventsLast rest
    else e :: dedupEventsLast rest

/-- Entity dimension of `calculate_article_to_group_similarity`. -/
def entitySimilarity (a : ArticleSignature) (g : GroupSignature) : ℚ :=
  if a.primary_entities ≠ [] ∧ g.primary_entities ≠ [] then
    let maxPossible :=
      (g.primary_entities.map
        (fun ge => ge.frequency.getD 0 * ge.avg_relevance.getD (7/10))).sum
    let score :=
      (g.primary_entities.map (fun ge =>
        match articleRelLookup a.primary_entities ge.entity_id with
        | some articleRel =>
            articleRel * ge.avg_relevance.getD (7/10) * ge.frequency.getD 0
        | none => 0)).sum
    if maxPossible > 0 then score / maxPossible else 0
  else 0

/-- Company dimension: Jaccard of the article company set against the
set of truthy group company names. -/
def companySimilarity (a : ArticleSignature) (g : GroupSignature) : ℚ :=
  let A := a.companies.toFinset
  let B := ((g.companies.map (fun c => c.company_name)).filter
    (fun n => n ≠ "")).toFinset
  if A ≠ ∅ ∧ B ≠ ∅ then
    if 0 < (A ∪ B).card then ((A ∩ B).card : ℚ) / ((A ∪ B).card : ℚ) else 0
  else 0

/-- CVE dimension: Jaccard of the article CVE set against the set of
truthy group CVE ids. -/
def cveSimilarity (a : ArticleSignature) (g : GroupSignature) : ℚ :=
  let A := a.cves.toFinset
  let B := ((g.cves.map (fun c => c.cve_id)).filter (fun n => n ≠ "")).toFinset
  if A ≠ ∅ ∧ B ≠ ∅ then
    if 0 < (A ∪ B).card then ((A ∩ B).card : ℚ) / ((A ∪ B).card : ℚ) else 0
  else 0

/-- Event dimension: group-frequency mass of the events shared with the
article, over the total group event mass. -/
def eventSimilarity (a : ArticleSignature) (g : GroupSignature) : ℚ :=
  let names := (a.events.filter (fun n => n ≠ "")).toFinset
  if names ≠ ∅ ∧ g.events ≠ [] then
    let d := dedupEventsLast (g.events.filter (fun e => e.event_name ≠ ""))
    let maxPossible := (d.map (fun e => e.frequency)).sum
    let score :=
      (d.map (fun e => if e.event_name ∈ names then e.frequency else 0)).sum
    if maxPossible > 0 then score / maxPossible else 0
  else 0

/-- First element of a list attaining the maximal key, i.e. the head of
the stable descending sort the source performs before taking item 0. -/
def topByKey {α : Type} (key : α → ℚ) : List α → Option α
  | [] => none
  | x :: xs =>
    match topByKey key xs with
    | none => some x
    | some y => if key x ≥ key y then some x else some y

/-- Temporal adjustment computed from the two publication instants
(seconds); `none` models an absent or unparseable date, for which the
source leaves the adjustment at zero. -/
def temporalAdjustment (aDate gDate : Option ℚ) : ℚ :=
  match aDate, gDate with
  | some ta, some tg =>
    let hoursDiff := |ta - tg| / 3600
    if hoursDiff ≤ 48 then (5/100) * (1 - hoursDiff / 48)
    else if hoursDiff > 7 * 24 then (-3/100) * pyMin (hoursDiff / (7 * 24) - 1) 1
    else 0
  | _, _ => 0

/-- Source bonus: 0.03 when the article source is truthy, the member
source list is nonempty and contains the article source. -/
def sourceBonus (aSource : Option String) (memberSources : List String) : ℚ :=
  match aSource with
  | some s =>
    if s ≠ "" ∧ memberSources ≠ [] ∧ s ∈ memberSources then 3/100 else 0
  | none => 0

/-- Core entity bonus of the similarity scorer: 0.20 when the top
article entity (by relevance, default 0) and the top group entity (by
frequency times average relevance, defaults 0) share an id and the
article entity type is product, organization or technology. -/
def coreEntityBonus (a : ArticleSignature) (g : GroupSignature) : ℚ :=
  let topArticle := topByKey (fun e => e.relevance_score.getD 0) a.primary_entities
  let topGroup :=
    topByKey (fun ge => ge.frequency.getD 0 * ge.avg_relevance.getD 0)
      g.primary_entities
  match topArticle, topGroup with
  | some ta, some tg =>
    if ta.entity_id = tg.entity_id ∧
        (ta.entity_type = some "product" ∨ ta.entity_type = some "organization" ∨
          ta.entity_type = some "technology") then 20/100
    else 0
  | _, _ => 0

/-- Embedding of `calculate_article_to_group_similarity` from
`src/enhanced_grouping.py`. -/
def calculate_article_to_group_similarity (a : ArticleSignature)
    (g : GroupSignature) : SimilarityResults :=
  let es := entitySimilarity a g
  let cs := companySimilarity a g
  let vs := cveSimilarity a g
  let evs := eventSimilarity a g
  let composite := es * (40/100) + cs * (25/100) + vs * (15/100) + evs * (10/100)
  let temporal := temporalAdjustment a.published_date g.latest_published_date
  let src := sourceBonus a.source g.member_sources
  let core := coreEntityBonus a g
  let adjusted := composite + temporal + src + core
  let final := pyMax 0 (pyMin 1 adjusted)
  { entity_similarity := es
    company_similarity := cs
    cve_similarity := vs
    event_similarity := evs
    composite_score := final
    temporal_adjustment := temporal
    source_bonus := src
    core_entity_bonus := core
    base_composite_score := composite }

/-! ### Membership store (`add_article_to_group`, src/enhanced_grouping.py) -/

/-- The `two_phase_article_group_memberships` table: rows of
(article_id, group_id) in insertion order. -/
abbrev MembershipTable := List (Nat × Nat)

/-- Embedding of `add_article_to_group`: look up the first membership
row of the article; if it already names the target group return without
writing, otherwise delete every row of the article and insert the new
one.  Returns the success flag together with the new table (database
errors are outside the model). -/
def add_article_to_group (article_id group_id : Nat) (tbl : MembershipTable) :
    Bool × MembershipTable :=
  match tbl.find? (fun r => r.1 == article_id) with
  | some r =>
    if r.2 = group_id then (true, tbl)
    else (true, tbl.filter (fun r => r.1 ≠ article_id) ++ [(article_id, group_id)])
  | none => (true, tbl ++ [(article_id, group_id)])

/-! ### Entity store (`insert_entity`, src/news_grouping_app/db/database.py) -/

/-- A row of the `entity_profiles` table.  Timestamps are abstract
naturals standing for CURRENT_TIMESTAMP values. -/
structure EntityRow where
  entity_id : Nat
  entity_name : String
  entity_type : String
  description : Option String
  mention_count : Nat
  first_seen : Nat
  last_seen : Nat
  updated_at : Nat
  deriving Repr, DecidableEq

abbrev EntityTable := List EntityRow

/-- Embedding of `insert_entity`: select by (entity_name, entity_type);
on a hit run the UPDATE that bumps `mention_count`, refreshes
`last_seen` and `updated_at`, and sets
`description = COALESCE(new, description)`; on a miss insert a fresh row
with `mention_count = 1`.  `now` stands for CURRENT_TIMESTAMP and
`nextId` for the autoincrement id of a fresh insert; returns the
resulting entity id and the new table. -/
def insert_entity (entity_name entity_type : String)
    (description : Option String) (now nextId : Nat) (tbl : EntityTable) :
    Option Nat × EntityTable :=
  match tbl.find? (fun r => r.entity_name == entity_name &&
      r.entity_type == entity_type) with
  | some r =>
    (some r.entity_id,
      tbl.map (fun s =>
        if s.entity_id = r.entity_id then
          { s with
            mention_count := s.mention_count + 1
            last_seen := now
            updated_at := now
            description := description.orElse (fun _ => s.description) }
        else s))
  | none =>
    (some nextId,
      tbl ++ [{ entity_id := nextId, entity_name := entity_name,
                entity_type := entity_type, description := description,
                mention_count := 1, first_seen := now, last_seen := now,
                updated_at := now }])

/-! ### Dynamic thresholds and the per-article decision
(src/news_grouping_app/analysis/two_phase_grouping.py) -/

/-- Group dictionary fields the decision logic reads. -/
structure GroupInfo where
  group_id : Nat
  main_topic : String
  article_ids : List Nat
  deriving Repr, DecidableEq

/-- The threshold rules dictionary shape. -/
structure ThresholdRules where
  base : ℚ
  category_adjust : List (String × ℚ)
  breakpoints : List Nat
  adjustments : List ℚ
  deriving Repr, DecidableEq

/-- `DYNAMIC_THRESHOLD_RULES` from two_phase_grouping.py. -/
def DYNAMIC_THRESHOLD_RULES : ThresholdRules :=
  { base := 40/100
    category_adjust :=
      [("Cybersecurity & Data Privacy", 5/100),
       ("Artificial Intelligence & Machine Learning", 3/100),
       ("Other", -3/100)]
    breakpoints := [1, 5, 10]
    adjustments := [5/100, 0, -3/100, -5/100] }

/-- Index selected by the breakpoint loop of
`_calculate_dynamic_threshold`: the number of leading breakpoints the
group size strictly exceeds. -/
def sizeAdjIndex (size : Nat) (breakpoints : List Nat) : Nat :=
  (breakpoints.takeWhile (fun bp => size > bp)).length

/-- Embedding of `_calculate_dynamic_threshold`.  The category
adjustment is skipped for a falsy (empty) category; the size adjustment
is applied only when the adjustment list is one longer than the
breakpoint list; the result is clamped to [0.1, 0.9]. -/
def calculateDynamicThreshold (g : GroupInfo) (base : ℚ)
    (rules : ThresholdRules) : ℚ :=
  let t := base +
    (if g.main_topic ≠ "" then
      ((rules.category_adjust.find? (fun p => p.1 == g.main_topic)).map
        Prod.snd).getD 0
    else 0)
  let t :=
    if rules.adjustments.length = rules.breakpoints.length + 1 then
      t + rules.adjustments.getD (sizeAdjIndex g.article_ids.length
        rules.breakpoints) 0
    else t
  pyMax (1/10) (pyMin (9/10) t)

/-- Per-group score record accumulated by
`process_single_ungrouped_article`. -/
structure GroupScore where
  group_id : Nat
  score : ℚ
  dynamic_threshold : ℚ
  deriving Repr, DecidableEq

/-- Stable descending insertion by score, modelling
`group_scores.sort(key=score, reverse=True)`. -/
def insertScoreDesc (x : GroupScore) : List GroupScore → List GroupScore
  | [] => [x]
  | y :: ys => if y.score < x.score then x :: y :: ys else y :: insertScoreDesc x ys

/-- Stable descending sort by score. -/
def sortScoresDesc : List GroupScore → List GroupScore
  | [] => []
  | x :: xs => insertScoreDesc x (sortScoresDesc xs)

/-- Outcome of the decision logic.  The ambiguous case hands control to
the LLM arbitration, whose reply is external to the model. -/
inductive Decision where
  | addToExisting (group_id : Nat)
  | ambiguous
  | createNew
  deriving Repr, DecidableEq

/-- Ambiguity zone constants from two_phase_grouping.py. -/
def AMBIGUITY_ZONE_BELOW_THRESHOLD : ℚ := 10/100
def AMBIGUITY_ZONE_ABOVE_THRESHOLD : ℚ := 5/100
def MAX_SCORE_GAP_FOR_AMBIGUITY : ℚ := 8/100

/-- The scores computed by `process_single_ungrouped_article` for one
article: groups with an empty member list are skipped, each scored
group carries its own dynamic threshold. -/
def groupScores (a : ArticleSignature)
    (groups : List (GroupInfo × GroupSignature)) (rules : ThresholdRules) :
    List GroupScore :=
  groups.filterMap (fun pg =>
    if pg.1.article_ids = [] then none
    else some
      { group_id := pg.1.group_id
        score := (calculate_article_to_group_similarity a pg.2).composite_score
        dynamic_threshold := calculateDynamicThreshold pg.1 rules.base rules })

/-- Embedding of the decision logic of
`process_single_ungrouped_article` (with `ENABLE_LLM_MATCH_ASSESSMENT`
set to its source value True): clear match above threshold attaches,
the ambiguity zone escalates to arbitration, otherwise a new group is
created.  The second best score defaults to -1 as in the source. -/
def processDecision (a : ArticleSignature)
    (groups : List (GroupInfo × GroupSignature)) (rules : ThresholdRules) :
    Decision :=
  match sortScoresDesc (groupScores a groups rules) with
  | [] => Decision.createNew
  | best :: rest =>
    let secondBest := match rest with
      | [] => (-1 : ℚ)
      | b2 :: _ => b2.score
    let isAbove := best.score ≥ best.dynamic_threshold
    let inZone :=
      (best.dynamic_threshold - AMBIGUITY_ZONE_BELOW_THRESHOLD ≤ best.score ∧
        best.score < best.dynamic_threshold + AMBIGUITY_ZONE_ABOVE_THRESHOLD) ∨
      (isAbove ∧ best.score - secondBest < MAX_SCORE_GAP_FOR_AMBIGUITY)
    if isAbove ∧ ¬ inZone then Decision.addToExisting best.group_id
    else if inZone then Decision.ambiguous
    else Decision.createNew

/-! ### Merge pass (src/analysis/group_merging.py) -/

/-- Group data the merge loop reads.  `created_at` is carried for the
specification comparison only: the source never fetches it. -/
structure MGroup where
  group_id : Nat
  article_ids : List Nat
  created_at : Nat
  deriving Repr, DecidableEq

/-- Inner loop body of `merge_similar_groups`: the first group of the
tail that is not yet processed and whose similarity to `a` reaches the
threshold. -/
def findMergePartner (sim : MGroup → MGroup → ℚ) (threshold : ℚ) (a : MGroup)
    (rest : List MGroup) (processed : List Nat) : Option MGroup :=
  rest.find? (fun b =>
    !(processed.contains b.group_id) && decide (threshold ≤ sim a b))

/-- Outer loop of `merge_similar_groups` over the group list, carrying
the processed id set; emits the (survivor, deleted) id pairs of the
merges it commits.  The source keeps `group_a` as survivor, marks both
ids processed, and breaks to the next outer index after a merge;
database and LLM failures are outside the model. -/
def mergePassAux (sim : MGroup → MGroup → ℚ) (threshold : ℚ) :
    List MGroup → List Nat → List (Nat × Nat)
  | [], _ => []
  | a :: rest, processed =>
    if processed.contains a.group_id then mergePassAux sim threshold rest processed
    else
      match findMergePartner sim threshold a rest processed with
      | none => mergePassAux sim threshold rest processed
      | some b =>
        (a.group_id, b.group_id) ::
          mergePassAux sim threshold rest
            (a.group_id :: b.group_id :: processed)

/-- Embedding of one invocation of `merge_similar_groups`, restricted
to the merge decisions it makes: the list of (survivor, deleted) group
id pairs in commit order. -/
def mergePass (sim : MGroup → MGroup → ℚ) (threshold : ℚ)
    (groups : List MGroup) : List (Nat × Nat) :=
  mergePassAux sim threshold groups []

/-- Modelled from the spec: the survivor selection rule the
specification describes for the Merger (larger membership wins, then
older `created_at`, then smaller id).  The source does not implement
this rule, so it is stated here from the words of the spec for
comparison. -/
def specSurvivorId (a b : MGroup) : Nat :=
  if b.article_ids.length < a.article_ids.length then a.group_id
  else if a.article_ids.length < b.article_ids.length then b.group_id
  else if a.created_at < b.created_at then a.group_id
  else if b.created_at < a.created_at then b.group_id
  else min a.group_id b.group_id

/-! ### Token estimation (src/utils.py) -/

/-- Embedding of Python `str.split()` without arguments: split on runs
of whitespace, producing no empty words. -/
def pyWordsAux : List Char → List Char → List (List Char)
  | [], acc => if acc = [] then [] else [acc.reverse]
  | c :: rest, acc =>
    if c.isWhitespace then
      if acc = [] then pyWordsAux rest []
      else acc.reverse :: pyWordsAux rest []
    else pyWordsAux rest (c :: acc)

/-- The whitespace-separated words of a string, as Python `split()`. -/
def pyWords (text : String) : List (List Char) :=
  pyWordsAux text.toList []

/-- Embedding of `approximate_tokens` from src/utils.py:
`int(len(text.split()) * 1.3)`, i.e. the word count times 1.3 truncated
toward zero (the value is nonnegative, so truncation is the floor). -/
def approximate_tokens (text : String) : ℤ :=
  (((pyWords text).length : ℚ) * (13/10)).floor

/-- Modelled from the spec: the category offset table of the dynamic
threshold (named from the words of the claim, for comparison with the
source rules). -/
def specCategoryOffset (topic : String) : ℚ :=
  if topic = "Cybersecurity & Data Privacy" then 5/100
  else if topic = "Artificial Intelligence & Machine Learning" then 3/100
  else if topic = "Other" then -3/100
  else 0

/-- Modelled from the spec: the size-bucket offset table of the dynamic
threshold. -/
def specSizeOffset (memberCount : Nat) : ℚ :=
  if memberCount ≤ 1 then 5/100
  else if memberCount ≤ 5 then 0
  else if memberCount ≤ 10 then -3/100
  else -5/100

/-- Concrete inputs used by witnesses and counterexamples below. -/
def emptyArticleSig : ArticleSignature :=
  { article_id := 1, published_date := some 0, source := none,
    primary_entities := [], companies := [], cves := [], events := [] }

/-- A group signature sharing the publication instant of
`emptyArticleSig`. -/
def plainGroupSig : GroupSignature :=
  { group_id := 7, latest_published_date := some 0, member_sources := [],
    primary_entities := [], companies := [], cves := [], events := [] }

/-- Group dictionary for `plainGroupSig`: one member, category Other. -/
def plainGroupInfo : GroupInfo :=
  { group_id := 7, main_topic := "Other", article_ids := [3] }

/-- An article signature with one entity, company, CVE and event. -/
def richArticleSig : ArticleSignature :=
  { article_id := 2, published_date := some 3600,
    source := some "bleepingcomputer",
    primary_entities :=
      [{ entity_id := 11
         relevance_score := some (9/10)
         entity_type := some "organization" }],
    companies := ["Acme"], cves := ["CVE-2024-1234"], events := ["breach"] }

/-- A matching group signature for `richArticleSig`. -/
def richGroupSig : GroupSignature :=
  { group_id := 9, latest_published_date := some 0,
    member_sources := ["bleepingcomputer"],
    primary_entities :=
      [{ entity_id := 11
         avg_relevance := some (8/10)
         frequency := some 1 }],
    companies := [{ company_name := "Acme", frequency := 1 }],
    cves := [{ cve_id := "CVE-2024-1234", frequency := 1 }],
    events := [{ event_name := "breach", frequency := 1 }] }

/-- Merge-pass input: fewer articles, larger id, newer creation. -/
def mgA : MGroup := { group_id := 2, article_ids := [10], created_at := 30 }

/-- Merge-pass input: more articles, smaller id, older creation. -/
def mgB : MGroup := { group_id := 1, article_ids := [11, 12], created_at := 5 }

/-- A similarity function that rates every pair 1. -/
def simConst : MGroup → MGroup → ℚ := fun _ _ => 1

/-- An entity row whose description is already present. -/
def acmeRow : EntityRow :=
  { entity_id := 1, entity_name := "Acme", entity_type := "organization",
    description := some "old", mention_count := 3, first_seen := 0,
    last_seen := 0, updated_at := 0 }

/-! ## Theorems -/

/-- `Rat.floor` agrees with the floor of the order structure. -/
theorem ratFloor_eq_floor (q : ℚ) : q.floor = ⌊q⌋ :=
  (Rat.floor_def' q).trans Rat.floor_def.symm

/-- Claim C9, counterexample: on a text of nine whitespace-separated
words the token estimate of the source is 11 while
round(word_count times 1.3) is 12, so the estimate is not the rounding
the claim states. -/
theorem approximate_tokens_round_counterexample :
    approximate_tokens "w w w w w w w w w" = 11 ∧
      round (((pyWords "w w w w w w w w w").length : ℚ) * (13/10)) = 12 := by
  have h9 : (pyWords "w w w w w w w w w").length = 9 := by decide
  constructor
  · unfold approximate_tokens
    rw [h9, ratFloor_eq_floor]
    have h : ((9 : ℕ) : ℚ) * (13/10) = ((117 : ℤ) : ℚ) / ((10 : ℕ) : ℚ) := by
      push_cast; ring
    rw [h, Rat.floor_intCast_div_natCast]
    norm_num
  · rw [h9]
    norm_num [round_eq]

/-- Claim C9, amended: the token estimate used for batching equals the
word count times 1.3 truncated (the floor), equivalently
(13 times word_count) integer-divided by 10 - not rounded to nearest. -/
theorem approximate_tokens_truncates (text : String) :
    approximate_tokens text = (13 * ((pyWords text).length : ℤ)) / 10 := by
  unfold approximate_tokens
  rw [ratFloor_eq_floor]
  have h : (((pyWords text).length : ℚ)) * (13/10) =
      ((13 * ((pyWords text).length : ℤ) : ℤ) : ℚ) / ((10 : ℕ) : ℚ) := by
    push_cast; ring
  rw [h, Rat.floor_intCast_div_natCast]
  norm_num

/-- The category lookup of the source rules computes the offset table
of the spec. -/
theorem find_category_eq (topic : String) :
    ((List.find? (fun p => p.1 == topic)
      [("Cybersecurity & Data Privacy", (5/100 : ℚ)),
       ("Artificial Intelligence & Machine Learning", 3/100),
       ("Other", -3/100)]).map Prod.snd).getD 0 = specCategoryOffset topic := by
  unfold specCategoryOffset
  by_cases h1 : topic = "Cybersecurity & Data Privacy"
  · simp [h1, List.find?]
  · by_cases h2 : topic = "Artificial Intelligence & Machine Learning"
    · simp [h2, List.find?, h1]
    · by_cases h3 : topic = "Other"
      · simp [h3, List.find?, h1, h2]
      · have e1 : ("Cybersecurity & Data Privacy" == topic) = false :=
          beq_eq_false_iff_ne.mpr (Ne.symm h1)
        have e2 : ("Artificial Intelligence & Machine Learning" == topic) = false :=
          beq_eq_false_iff_ne.mpr (Ne.symm h2)
        have e3 : ("Other" == topic) = false :=
          beq_eq_false_iff_ne.mpr (Ne.symm h3)
        simp [List.find?, h1, h2, h3, e1, e2, e3]

/-- The breakpoint walk of the source rules computes the size-bucket
offset table of the spec. -/
theorem getD_size_eq (n : Nat) :
    ([(5/100 : ℚ), 0, -3/100, -5/100].getD (sizeAdjIndex n [1, 5, 10]) 0) =
      specSizeOffset n := by
  unfold sizeAdjIndex specSizeOffset
  by_cases c1 : n ≤ 1
  · have h : ¬ (1 < n) := by omega
    simp [List.takeWhile, h, c1]
  · by_cases c2 : n ≤ 5
    · have g1 : 1 < n := by omega
      have h : ¬ (5 < n) := by omega
      simp [List.takeWhile, g1, h, c1, c2]
    · by_cases c3 : n ≤ 10
      · have g1 : 1 < n := by omega
        have g5 : 5 < n := by omega
        have h : ¬ (10 < n) := by omega
        simp [List.takeWhile, g1, g5, h, c1, c2, c3]
      · have g1 : 1 < n := by omega
        have g5 : 5 < n := by omega
        have g10 : 10 < n := by omega
        simp [List.takeWhile, g1, g5, g10, c1, c2, c3]

/-- The dynamic threshold computation as base plus the two spec offset
tables, clamped. -/
theorem calculateDynamicThreshold_eq (g : GroupInfo) (base : ℚ) :
    calculateDynamicThreshold g base DYNAMIC_THRESHOLD_RULES =
      pyMax (1/10) (pyMin (9/10)
        (base + specCategoryOffset g.main_topic +
          specSizeOffset g.article_ids.length)) := by
  unfold calculateDynamicThreshold DYNAMIC_THRESHOLD_RULES
  dsimp only
  rw [if_pos (by norm_num)]
  rw [getD_size_eq]
  by_cases h0 : g.main_topic = ""
  · rw [if_neg (by simp [h0])]
    have : specCategoryOffset g.main_topic = 0 := by simp [specCategoryOffset, h0]
    rw [this]
  · rw [if_pos h0, find_category_eq]

/-- Claim C7: under the source rule set the dynamic threshold is the
base threshold plus the category offset (+0.05 cybersecurity, +0.03
AI/ML, -0.03 Other, 0 otherwise) plus the size-bucket offset (+0.05 for
at most one member, 0 for 2 to 5, -0.03 for 6 to 10, -0.05 above 10),
clamped to the interval [0.10, 0.90]. -/
theorem dynamic_threshold_formula (g : GroupInfo) (base : ℚ) :
    calculateDynamicThreshold g base DYNAMIC_THRESHOLD_RULES =
      max (1/10) (min (9/10)
        (base + specCategoryOffset g.main_topic +
          specSizeOffset g.article_ids.length)) := by
  rw [calculateDynamicThreshold_eq, pyMax_eq_max, pyMin_eq_min]

/-- The temporal adjustment of every similarity result is at most 0.05
in absolute value. -/
theorem temporalAdjustment_abs_le (d1 d2 : Option ℚ) :
    |temporalAdjustment d1 d2| ≤ 5/100 := by
  cases d1 with
  | none => norm_num [temporalAdjustment]
  | some ta =>
    cases d2 with
    | none => norm_num [temporalAdjustment]
    | some tg =>
      simp only [temporalAdjustment]
      set h := |ta - tg| / 3600 with hdef
      have h0 : 0 ≤ h := by positivity
      split_ifs with h48 h168
      · have hdiv : h / 48 ≤ 1 := by
          rw [div_le_one (by norm_num : (0:ℚ) < 48)]
          exact h48
        have hnn : (0:ℚ) ≤ 1 - h / 48 := by linarith
        rw [abs_of_nonneg (mul_nonneg (by norm_num) hnn)]
        have hdiv0 : 0 ≤ h / 48 := by positivity
        nlinarith
      · rw [pyMin_eq_min]
        have hgt : (1:ℚ) < h / (7 * 24) := by
          rw [lt_div_iff₀ (by norm_num : (0:ℚ) < 7 * 24)]
          linarith
        have hm0 : (0:ℚ) ≤ min (h / (7 * 24) - 1) 1 :=
          le_min (by linarith) (by norm_num)
        have hm1 : min (h / (7 * 24) - 1) 1 ≤ 1 := min_le_right _ _
        rw [abs_mul, abs_of_nonneg hm0]
        have : |(-3/100 : ℚ)| = 3/100 := by norm_num [abs_of_nonpos]
        rw [this]
        nlinarith
      · norm_num

/-- Claim C6: with both instants present and dh the absolute difference
in hours, the temporal adjustment is +0.05(1 - dh/48) for dh at most
48, -0.03 min(dh/168 - 1, 1) for dh above 168, and 0 otherwise; and for
all inputs its absolute value is at most 0.05. -/
theorem temporal_adjustment_formula_and_bound (a : ArticleSignature)
    (g : GroupSignature) :
    |(calculate_article_to_group_similarity a g).temporal_adjustment| ≤ 5/100 ∧
    (∀ ta tg : ℚ, a.published_date = some ta →
      g.latest_published_date = some tg →
      (calculate_article_to_group_similarity a g).temporal_adjustment =
        (if |ta - tg| / 3600 ≤ 48 then (5/100) * (1 - (|ta - tg| / 3600) / 48)
         else if 168 < |ta - tg| / 3600 then
           (-3/100) * min ((|ta - tg| / 3600) / 168 - 1) 1
         else 0)) := by
  have hres : (calculate_article_to_group_similarity a g).temporal_adjustment =
      temporalAdjustment a.published_date g.latest_published_date := rfl
  constructor
  · rw [hres]
    exact temporalAdjustment_abs_le _ _
  · intro ta tg hta htg
    rw [hres, hta, htg]
    simp only [temporalAdjustment]
    rw [pyMin_eq_min]
    norm_num

/-- Claim C4: `add_article_to_group` keeps the membership table a
partial function: when each article has at most one row beforehand, the
same holds afterwards, and every row of the processed article now names
the target group (the prior row was deleted on a move). -/
theorem add_article_to_group_keeps_single_membership (tbl : MembershipTable)
    (aid gid : Nat) (h : (tbl.map Prod.fst).Nodup) :
    (((add_article_to_group aid gid tbl).2).map Prod.fst).Nodup ∧
    ∀ r ∈ (add_article_to_group aid gid tbl).2, r.1 = aid → r.2 = gid := by
  cases hf : tbl.find? (fun r => r.1 == aid) with
  | none =>
    have hnot : aid ∉ tbl.map Prod.fst := by
      intro hmem
      obtain ⟨r, hr, hfst⟩ := List.mem_map.mp hmem
      have := List.find?_eq_none.mp hf r hr
      simp [hfst] at this
    have hres : (add_article_to_group aid gid tbl).2 = tbl ++ [(aid, gid)] := by
      simp only [add_article_to_group, hf]
    rw [hres]
    constructor
    · simp only [List.map_append, List.map_cons, List.map_nil]
      exact List.Nodup.append h (List.nodup_singleton aid)
        (by intro x hx hy; simp at hy; subst hy; exact hnot hx)
    · intro r hr hfst
      rcases List.mem_append.mp hr with hin | hone
      · exact absurd (List.mem_map_of_mem Prod.fst hin) (hfst ▸ hnot)
      · simp at hone
        simp [hone]
  | some r =>
    have hrmem : r ∈ tbl := List.mem_of_find?_eq_some hf
    have hrfst : r.1 = aid := by
      have := List.find?_some hf
      simpa using this
    by_cases hsame : r.2 = gid
    · have hres : (add_article_to_group aid gid tbl).2 = tbl := by
        simp only [add_article_to_group, hf, if_pos hsame]
      rw [hres]
      refine ⟨h, ?_⟩
      intro s hs hsfst
      have hseq : s = r :=
        List.inj_on_of_nodup_map h hs hrmem (by rw [hsfst, hrfst])
      rw [hseq, hsame]
    · have hres : (add_article_to_group aid gid tbl).2 =
          tbl.filter (fun r => r.1 ≠ aid) ++ [(aid, gid)] := by
        simp only [add_article_to_group, hf, if_neg hsame]
      rw [hres]
      have hfilter : ∀ s ∈ tbl.filter (fun r => r.1 ≠ aid), s.1 ≠ aid := by
        intro s hs
        have := List.of_mem_filter hs
        simpa using this
      constructor
      · simp only [List.map_append, List.map_cons, List.map_nil]
        refine List.Nodup.append ?_ (List.nodup_singleton aid) ?_
        · exact h.sublist ((List.filter_sublist tbl).map Prod.fst)
        · intro x hx hy
          simp at hy
          subst hy
          obtain ⟨s, hs, hsfst⟩ := List.mem_map.mp hx
          exact hfilter s hs hsfst
      · intro s hs hsfst
        rcases List.mem_append.mp hs with hin | hone
        · exact absurd hsfst (hfilter s hin)
        · simp at hone
          simp [hone]

/-- Claim C10: when the article is already a member of the target group
the write is skipped and the table is unchanged (under the at most one
membership invariant), and the write primitive is idempotent: applying
it twice gives the state of applying it once. -/
theorem add_article_to_group_idempotent (tbl : MembershipTable)
    (aid gid : Nat) :
    ((tbl.map Prod.fst).Nodup → (aid, gid) ∈ tbl →
      add_article_to_group aid gid tbl = (true, tbl)) ∧
    add_article_to_group aid gid (add_article_to_group aid gid tbl).2 =
      add_article_to_group aid gid tbl := by
  constructor
  · intro h hmem
    cases hf : tbl.find? (fun r => r.1 == aid) with
    | none =>
      have := List.find?_eq_none.mp hf (aid, gid) hmem
      simp at this
    | some r =>
      have hrmem : r ∈ tbl := List.mem_of_find?_eq_some hf
      have hrfst : r.1 = aid := by
        have := List.find?_some hf
        simpa using this
      have hreq : r = (aid, gid) :=
        List.inj_on_of_nodup_map h hrmem hmem (by simpa using hrfst)
      have hsame : r.2 = gid := by rw [hreq]
      simp only [add_article_to_group, hf, if_pos hsame]
  · cases hf : tbl.find? (fun r => r.1 == aid) with
    | none =>
      have h1 : add_article_to_group aid gid tbl = (true, tbl ++ [(aid, gid)]) := by
        simp only [add_article_to_group, hf]
      have happ : (tbl ++ [(aid, gid)]).find? (fun r => r.1 == aid) =
          some (aid, gid) := by
        rw [List.find?_append, hf]
        simp [List.find?]
      have h2 : add_article_to_group aid gid (tbl ++ [(aid, gid)]) =
          (true, tbl ++ [(aid, gid)]) := by
        simp only [add_article_to_group, happ]
        simp
      rw [h1]
      exact h2
    | some r =>
      by_cases hsame : r.2 = gid
      · have h1 : add_article_to_group aid gid tbl = (true, tbl) := by
          simp only [add_article_to_group, hf, if_pos hsame]
        rw [h1]
        exact h1
      · have h1 : add_article_to_group aid gid tbl =
            (true, tbl.filter (fun r => r.1 ≠ aid) ++ [(aid, gid)]) := by
          simp only [add_article_to_group, hf, if_neg hsame]
        have hfilter : (tbl.filter (fun r => r.1 ≠ aid)).find?
            (fun r => r.1 == aid) = none := by
          rw [List.find?_eq_none]
          intro s hs
          have := List.of_mem_filter hs
          simpa using this
        have happ : ((tbl.filter (fun r => r.1 ≠ aid)) ++
            [(aid, gid)]).find? (fun r => r.1 == aid) = some (aid, gid) := by
          rw [List.find?_append, hfilter]
          simp [List.find?]
        have h2 : add_article_to_group aid gid
            (tbl.filter (fun r => r.1 ≠ aid) ++ [(aid, gid)]) =
            (true, tbl.filter (fun r => r.1 ≠ aid) ++ [(aid, gid)]) := by
          simp only [add_article_to_group, happ]
          simp
        rw [h1]
        exact h2

/-- A value returned by `articleRelLookup` is the effective relevance
of some article entity. -/
theorem articleRelLookup_mem (l : List ArticleEntitySig) (id : Nat) (q : ℚ)
    (h : articleRelLookup l id = some q) :
    ∃ e ∈ l, q = e.relevance_score.getD (7/10) := by
  unfold articleRelLookup at h
  cases hf : l.reverse.find? (fun e => e.entity_id == id) with
  | none => rw [hf] at h; simp at h
  | some e =>
    rw [hf] at h
    simp at h
    exact ⟨e, List.mem_reverse.mp (List.mem_of_find?_eq_some hf), h.symm⟩

/-- The entity dimension lies in the unit interval when all effective
relevances and frequencies do. -/
theorem entitySimilarity_bounds (a : ArticleSignature) (g : GroupSignature)
    (hart : ∀ e ∈ a.primary_entities,
      0 ≤ e.relevance_score.getD (7/10) ∧ e.relevance_score.getD (7/10) ≤ 1)
    (hrel : ∀ ge ∈ g.primary_entities,
      0 ≤ ge.avg_relevance.getD (7/10) ∧ ge.avg_relevance.getD (7/10) ≤ 1)
    (hfreq : ∀ ge ∈ g.primary_entities,
      0 ≤ ge.frequency.getD 0 ∧ ge.frequency.getD 0 ≤ 1) :
    0 ≤ entitySimilarity a g ∧ entitySimilarity a g ≤ 1 := by
  simp only [entitySimilarity]
  split_ifs with hne hpos
  · have hscore : 0 ≤ (g.primary_entities.map (fun ge =>
        match articleRelLookup a.primary_entities ge.entity_id with
        | some articleRel =>
            articleRel * ge.avg_relevance.getD (7/10) * ge.frequency.getD 0
        | none => 0)).sum := by
      apply List.sum_nonneg
      intro x hx
      obtain ⟨ge, hge, rfl⟩ := List.mem_map.mp hx
      cases hl : articleRelLookup a.primary_entities ge.entity_id with
      | none => simp
      | some q =>
        simp only
        obtain ⟨e, he, rfl⟩ := articleRelLookup_mem _ _ _ hl
        exact mul_nonneg (mul_nonneg (hart e he).1 (hrel ge hge).1)
          (hfreq ge hge).1
    have hle : (g.primary_entities.map (fun ge =>
        match articleRelLookup a.primary_entities ge.entity_id with
        | some articleRel =>
            articleRel * ge.avg_relevance.getD (7/10) * ge.frequency.getD 0
        | none => 0)).sum ≤
        (g.primary_entities.map
          (fun ge => ge.frequency.getD 0 * ge.avg_relevance.getD (7/10))).sum := by
      apply List.sum_le_sum
      intro ge hge
      cases hl : articleRelLookup a.primary_entities ge.entity_id with
      | none =>
        simp only
        exact mul_nonneg (hfreq ge hge).1 (hrel ge hge).1
      | some q =>
        simp only
        obtain ⟨e, he, rfl⟩ := articleRelLookup_mem _ _ _ hl
        have h1 := hart e he
        have h2 := hrel ge hge
        have h3 := hfreq ge hge
        calc e.relevance_score.getD (7/10) * ge.avg_relevance.getD (7/10) *
              ge.frequency.getD 0
            ≤ 1 * ge.avg_relevance.getD (7/10) * ge.frequency.getD 0 := by
              apply mul_le_mul_of_nonneg_right _ h3.1
              exact mul_le_mul_of_nonneg_right h1.2 h2.1
          _ = ge.frequency.getD 0 * ge.avg_relevance.getD (7/10) := by ring
    exact ⟨div_nonneg hscore (le_of_lt hpos), (div_le_one hpos).mpr hle⟩
  · norm_num
  · norm_num

/-- The company dimension lies in the unit interval. -/
theorem companySimilarity_bounds (a : ArticleSignature) (g : GroupSignature) :
    0 ≤ companySimilarity a g ∧ companySimilarity a g ≤ 1 := by
  simp only [companySimilarity]
  split_ifs with hne hpos
  · constructor
    · positivity
    · rw [div_le_one (by exact_mod_cast hpos)]
      exact_mod_cast Finset.card_le_card
        (Finset.Subset.trans Finset.inter_subset_left Finset.subset_union_left)
  · norm_num
  · norm_num

/-- The CVE dimension lies in the unit interval. -/
theorem cveSimilarity_bounds (a : ArticleSignature) (g : GroupSignature) :
    0 ≤ cveSimilarity a g ∧ cveSimilarity a g ≤ 1 := by
  simp only [cveSimilarity]
  split_ifs with hne hpos
  · constructor
    · positivity
    · rw [div_le_one (by exact_mod_cast hpos)]
      exact_mod_cast Finset.card_le_card
        (Finset.Subset.trans Finset.inter_subset_left Finset.subset_union_left)
  · norm_num
  · norm_num

/-- Deduplication keeps only entries of the original list. -/
theorem mem_dedupEventsLast (x : GroupEventSig) :
    ∀ l : List GroupEventSig, x ∈ dedupEventsLast l → x ∈ l := by
  intro l
  induction l with
  | nil => simp [dedupEventsLast]
  | cons e rest ih =>
    simp only [dedupEventsLast]
    split_ifs with hdup
    · intro hx
      exact List.mem_cons_of_mem e (ih hx)
    · intro hx
      rcases List.mem_cons.mp hx with rfl | hx
      · exact List.mem_cons_self _ _
      · exact List.mem_cons_of_mem e (ih hx)

/-- The event dimension lies in the unit interval when the group event
frequencies are nonnegative. -/
theorem eventSimilarity_bounds (a : ArticleSignature) (g : GroupSignature)
    (hev : ∀ ev ∈ g.events, 0 ≤ ev.frequency) :
    0 ≤ eventSimilarity a g ∧ eventSimilarity a g ≤ 1 := by
  simp only [eventSimilarity]
  split_ifs with hne hpos
  · have hmem : ∀ e ∈ dedupEventsLast (g.events.filter
        (fun e => e.event_name ≠ "")), 0 ≤ e.frequency := by
      intro e he
      exact hev e (List.mem_of_mem_filter (mem_dedupEventsLast e _ he))
    have hscore : 0 ≤ ((dedupEventsLast (g.events.filter
        (fun e => e.event_name ≠ ""))).map (fun e =>
        if e.event_name ∈ (a.events.filter (fun n => n ≠ "")).toFinset
        then e.frequency else 0)).sum := by
      apply List.sum_nonneg
      intro x hx
      obtain ⟨e, he, rfl⟩ := List.mem_map.mp hx
      split_ifs with hin
      · exact hmem e he
      · exact le_rfl
    have hle : ((dedupEventsLast (g.events.filter
        (fun e => e.event_name ≠ ""))).map (fun e =>
        if e.event_name ∈ (a.events.filter (fun n => n ≠ "")).toFinset
        then e.frequency else 0)).sum ≤
        ((dedupEventsLast (g.events.filter
          (fun e => e.event_name ≠ ""))).map (fun e => e.frequency)).sum := by
      apply List.sum_le_sum
      intro e he
      split_ifs with hin
      · exact le_rfl
      · exact hmem e he
    exact ⟨div_nonneg hscore (le_of_lt hpos), (div_le_one hpos).mpr hle⟩
  · norm_num
  · norm_num

/-- The clamp of the final score stays inside the unit interval. -/
theorem pyClamp_unit (x : ℚ) : 0 ≤ pyMax 0 (pyMin 1 x) ∧ pyMax 0 (pyMin 1 x) ≤ 1 := by
  rw [pyMax_eq_max, pyMin_eq_min]
  exact ⟨le_max_left 0 _, max_le (by norm_num) (min_le_left 1 x)⟩

/-- Claim C3: when every per-entity relevance and every per-item
frequency of the two signatures lies in [0,1], each of the four
per-dimension similarity values lies in [0,1], and so does the reported
composite score. -/
theorem similarity_scores_unit_interval (a : ArticleSignature)
    (g : GroupSignature)
    (hart : ∀ e ∈ a.primary_entities,
      0 ≤ e.relevance_score.getD (7/10) ∧ e.relevance_score.getD (7/10) ≤ 1)
    (hrel : ∀ ge ∈ g.primary_entities,
      0 ≤ ge.avg_relevance.getD (7/10) ∧ ge.avg_relevance.getD (7/10) ≤ 1)
    (hfreq : ∀ ge ∈ g.primary_entities,
      0 ≤ ge.frequency.getD 0 ∧ ge.frequency.getD 0 ≤ 1)
    (hev : ∀ ev ∈ g.events, 0 ≤ ev.frequency ∧ ev.frequency ≤ 1) :
    (0 ≤ (calculate_article_to_group_similarity a g).entity_similarity ∧
      (calculate_article_to_group_similarity a g).entity_similarity ≤ 1) ∧
    (0 ≤ (calculate_article_to_group_similarity a g).company_similarity ∧
      (calculate_article_to_group_similarity a g).company_similarity ≤ 1) ∧
    (0 ≤ (calculate_article_to_group_similarity a g).cve_similarity ∧
      (calculate_article_to_group_similarity a g).cve_similarity ≤ 1) ∧
    (0 ≤ (calculate_article_to_group_similarity a g).event_similarity ∧
      (calculate_article_to_group_similarity a g).event_similarity ≤ 1) ∧
    (0 ≤ (calculate_article_to_group_similarity a g).composite_score ∧
      (calculate_article_to_group_similarity a g).composite_score ≤ 1) := by
  have he : (calculate_article_to_group_similarity a g).entity_similarity =
      entitySimilarity a g := rfl
  have hc : (calculate_article_to_group_similarity a g).company_similarity =
      companySimilarity a g := rfl
  have hv : (calculate_article_to_group_similarity a g).cve_similarity =
      cveSimilarity a g := rfl
  have hEv : (calculate_article_to_group_similarity a g).event_similarity =
      eventSimilarity a g := rfl
  have hcs : (calculate_article_to_group_similarity a g).composite_score =
      pyMax 0 (pyMin 1
        (entitySimilarity a g * (40/100) + companySimilarity a g * (25/100) +
          cveSimilarity a g * (15/100) + eventSimilarity a g * (10/100) +
          temporalAdjustment a.published_date g.latest_published_date +
          sourceBonus a.source g.member_sources + coreEntityBonus a g)) := rfl
  refine ⟨?_, ?_, ?_, ?_, ?_⟩
  · rw [he]; exact entitySimilarity_bounds a g hart hrel hfreq
  · rw [hc]; exact companySimilarity_bounds a g
  · rw [hv]; exact cveSimilarity_bounds a g
  · rw [hEv]; exact eventSimilarity_bounds a g (fun ev hevm => (hev ev hevm).1)
  · rw [hcs]; exact pyClamp_unit _

/-- The category offset table is bounded. -/
theorem specCategoryOffset_bounds (t : String) :
    -3/100 ≤ specCategoryOffset t ∧ specCategoryOffset t ≤ 5/100 := by
  unfold specCategoryOffset
  split_ifs <;> norm_num

/-- The size-bucket offset table is bounded. -/
theorem specSizeOffset_bounds (n : Nat) :
    -5/100 ≤ specSizeOffset n ∧ specSizeOffset n ≤ 5/100 := by
  unfold specSizeOffset
  split_ifs <;> norm_num

/-- Under the source rules with their base 0.40, every dynamic
threshold is at least 0.32. -/
theorem calculateDynamicThreshold_ge (g : GroupInfo) :
    32/100 ≤ calculateDynamicThreshold g (40/100) DYNAMIC_THRESHOLD_RULES := by
  rw [calculateDynamicThreshold_eq, pyMax_eq_max, pyMin_eq_min]
  have h1 := specCategoryOffset_bounds g.main_topic
  have h2 := specSizeOffset_bounds g.article_ids.length
  have ht : 32/100 ≤ 40/100 + specCategoryOffset g.main_topic +
      specSizeOffset g.article_ids.length := by linarith
  calc (32/100 : ℚ)
      ≤ min (9/10) (40/100 + specCategoryOffset g.main_topic +
          specSizeOffset g.article_ids.length) := le_min (by norm_num) ht
    _ ≤ max (1/10) _ := le_max_right _ _

/-- Membership is preserved by the descending insertion. -/
theorem mem_insertScoreDesc (x y : GroupScore) (l : List GroupScore) :
    y ∈ insertScoreDesc x l ↔ y = x ∨ y ∈ l := by
  induction l with
  | nil => simp [insertScoreDesc]
  | cons z zs ih =>
    simp only [insertScoreDesc]
    split_ifs with h
    · simp [List.mem_cons]
    · simp only [List.mem_cons, ih]
      tauto

/-- The stable descending sort is a permutation for membership. -/
theorem mem_sortScoresDesc (y : GroupScore) (l : List GroupScore) :
    y ∈ sortScoresDesc l ↔ y ∈ l := by
  induction l with
  | nil => simp [sortScoresDesc]
  | cons z zs ih =>
    simp only [sortScoresDesc, mem_insertScoreDesc, ih, List.mem_cons]

/-- The source bonus is between 0 and 0.03. -/
theorem sourceBonus_bounds (src : Option String) (l : List String) :
    0 ≤ sourceBonus src l ∧ sourceBonus src l ≤ 3/100 := by
  unfold sourceBonus
  cases src with
  | none => norm_num
  | some v =>
    dsimp only
    split_ifs <;> norm_num

/-- With no article entities the core entity bonus is zero. -/
theorem coreEntityBonus_empty (a : ArticleSignature) (g : GroupSignature)
    (h : a.primary_entities = []) : coreEntityBonus a g = 0 := by
  simp [coreEntityBonus, h, topByKey]

/-- An article whose entity, company and CVE lists are empty has zero
entity, company and CVE dimensions against any group, and a final score
of at most 0.18. -/
theorem empty_signature_scores (a : ArticleSignature) (g : GroupSignature)
    (h1 : a.primary_entities = []) (h2 : a.companies = [])
    (h3 : a.cves = []) (hfreq : ∀ ev ∈ g.events, 0 ≤ ev.frequency) :
    (calculate_article_to_group_similarity a g).entity_similarity = 0 ∧
    (calculate_article_to_group_similarity a g).company_similarity = 0 ∧
    (calculate_article_to_group_similarity a g).cve_similarity = 0 ∧
    (calculate_article_to_group_similarity a g).composite_score ≤ 18/100 := by
  have hes : entitySimilarity a g = 0 := by simp [entitySimilarity, h1]
  have hcs : companySimilarity a g = 0 := by simp [companySimilarity, h2]
  have hvs : cveSimilarity a g = 0 := by simp [cveSimilarity, h3]
  have hevb := eventSimilarity_bounds a g hfreq
  have htemp : temporalAdjustment a.published_date g.latest_published_date ≤
      5/100 := le_of_abs_le (temporalAdjustment_abs_le _ _)
  have hsrc := sourceBonus_bounds a.source g.member_sources
  have hcore : coreEntityBonus a g = 0 := coreEntityBonus_empty a g h1
  refine ⟨hes, hcs, hvs, ?_⟩
  have hfinal : (calculate_article_to_group_similarity a g).composite_score =
      pyMax 0 (pyMin 1
        (entitySimilarity a g * (40/100) + companySimilarity a g * (25/100) +
          cveSimilarity a g * (15/100) + eventSimilarity a g * (10/100) +
          temporalAdjustment a.published_date g.latest_published_date +
          sourceBonus a.source g.member_sources + coreEntityBonus a g)) := rfl
  rw [hfinal, hes, hcs, hvs, hcore, pyMax_eq_max, pyMin_eq_min]
  apply max_le (by norm_num)
  apply le_trans (min_le_right 1 _)
  nlinarith [hevb.1, hevb.2, hsrc.1, hsrc.2, htemp]

/-- Claim C2, amended: an article whose signature has empty entity,
company and CVE lists scores 0 on the entity, company and CVE
dimensions against every group and at most 0.18 overall - not
necessarily 0, because event overlap and the temporal and source
adjustments still apply - and under the source threshold rules the
grouping decision for it is always to create a new group. -/
theorem empty_signature_create_new (a : ArticleSignature)
    (h1 : a.primary_entities = []) (h2 : a.companies = []) (h3 : a.cves = [])
    (groups : List (GroupInfo × GroupSignature))
    (hfreq : ∀ pg ∈ groups, ∀ ev ∈ pg.2.events, 0 ≤ ev.frequency) :
    (∀ pg ∈ groups,
      (calculate_article_to_group_similarity a pg.2).entity_similarity = 0 ∧
      (calculate_article_to_group_similarity a pg.2).company_similarity = 0 ∧
      (calculate_article_to_group_similarity a pg.2).cve_similarity = 0 ∧
      (calculate_article_to_group_similarity a pg.2).composite_score ≤ 18/100) ∧
    processDecision a groups DYNAMIC_THRESHOLD_RULES = Decision.createNew := by
  have hdims : ∀ pg ∈ groups,
      (calculate_article_to_group_similarity a pg.2).entity_similarity = 0 ∧
      (calculate_article_to_group_similarity a pg.2).company_similarity = 0 ∧
      (calculate_article_to_group_similarity a pg.2).cve_similarity = 0 ∧
      (calculate_article_to_group_similarity a pg.2).composite_score ≤ 18/100 :=
    fun pg hpg => empty_signature_scores a pg.2 h1 h2 h3 (hfreq pg hpg)
  refine ⟨hdims, ?_⟩
  cases hs : sortScoresDesc (groupScores a groups DYNAMIC_THRESHOLD_RULES) with
  | nil => simp [processDecision, hs]
  | cons best rest =>
    have hbestmem : best ∈ groupScores a groups DYNAMIC_THRESHOLD_RULES := by
      have hmem : best ∈ sortScoresDesc
          (groupScores a groups DYNAMIC_THRESHOLD_RULES) := by
        rw [hs]; exact List.mem_cons_self _ _
      exact (mem_sortScoresDesc _ _).mp hmem
    obtain ⟨pg, hpg, hsome⟩ := List.mem_filterMap.mp hbestmem
    have hrec : best =
        { group_id := pg.1.group_id
          score := (calculate_article_to_group_similarity a pg.2).composite_score
          dynamic_threshold :=
            calculateDynamicThreshold pg.1 DYNAMIC_THRESHOLD_RULES.base
              DYNAMIC_THRESHOLD_RULES } := by
      by_cases hempty : pg.1.article_ids = []
      · rw [if_pos hempty] at hsome
        exact absurd hsome (by simp)
      · rw [if_neg hempty] at hsome
        exact (Option.some.inj hsome).symm
    have hscore : best.score ≤ 18/100 := by
      rw [hrec]
      exact (hdims pg hpg).2.2.2
    have hthr : 32/100 ≤ best.dynamic_threshold := by
      rw [hrec]
      exact calculateDynamicThreshold_ge pg.1
    have hnabove : ¬ (best.score ≥ best.dynamic_threshold) := by
      intro hcon
      linarith
    simp only [processDecision, hs]
    split_ifs with hA hB
    · exact absurd hA.1 hnabove
    · rcases hB with ⟨hz1, _⟩ | ⟨ha, _⟩
      · have hzb : AMBIGUITY_ZONE_BELOW_THRESHOLD = 10/100 := rfl
        rw [hzb] at hz1
        exact absurd hz1 (by linarith)
      · exact absurd ha hnabove
    · rfl

/-- Every pair emitted by the merge loop is an earlier group paired
with a later one whose similarity reaches the threshold. -/
theorem mergePassAux_pairs (sim : MGroup → MGroup → ℚ) (threshold : ℚ) :
    ∀ (l : List MGroup) (processed : List Nat) (p : Nat × Nat),
      p ∈ mergePassAux sim threshold l processed →
      ∃ x y : MGroup, [x, y].Sublist l ∧ p = (x.group_id, y.group_id) ∧
        threshold ≤ sim x y := by
  intro l
  induction l with
  | nil => intro processed p hp; simp [mergePassAux] at hp
  | cons a rest ih =>
    intro processed p hp
    simp only [mergePassAux] at hp
    split_ifs at hp with hproc
    · obtain ⟨x, y, hsub, hpq, hsim⟩ := ih processed p hp
      exact ⟨x, y, hsub.cons a, hpq, hsim⟩
    · cases hf : findMergePartner sim threshold a rest processed with
      | none =>
        rw [hf] at hp
        obtain ⟨x, y, hsub, hpq, hsim⟩ := ih processed p hp
        exact ⟨x, y, hsub.cons a, hpq, hsim⟩
      | some b =>
        rw [hf] at hp
        have hb : b ∈ rest := List.mem_of_find?_eq_some hf
        have hpred := List.find?_some hf
        have hsim : threshold ≤ sim a b := by
          rw [Bool.and_eq_true] at hpred
          exact of_decide_eq_true hpred.2
        rcases List.mem_cons.mp hp with rfl | hp
        · exact ⟨a, b, (List.singleton_sublist.mpr hb).cons₂ a, rfl, hsim⟩
        · obtain ⟨x, y, hsub, hpq, hsim⟩ :=
            ih (a.group_id :: b.group_id :: processed) p hp
          exact ⟨x, y, hsub.cons a, hpq, hsim⟩

/-- Claim C1, amended: in a merge pass the surviving group of a merged
pair is always the pair member that comes first in the iteration order
over the loaded group list (the source keeps `group_a`), the deleted
group comes later in that order, and the pair was merged because its
similarity reached the threshold; membership counts and creation times
play no role. -/
theorem merge_survivor_first_in_iteration_order (sim : MGroup → MGroup → ℚ)
    (threshold : ℚ) (groups : List MGroup) (p : Nat × Nat)
    (hp : p ∈ mergePass sim threshold groups) :
    ∃ x y : MGroup, [x, y].Sublist groups ∧ p = (x.group_id, y.group_id) ∧
      threshold ≤ sim x y :=
  mergePassAux_pairs sim threshold groups [] p hp

/-- The ids emitted by the merge loop avoid the processed set, are ids
of loaded groups, and are pairwise distinct. -/
theorem mergePassAux_ids (sim : MGroup → MGroup → ℚ) (threshold : ℚ) :
    ∀ (l : List MGroup) (processed : List Nat),
      (l.map MGroup.group_id).Nodup →
      (((mergePassAux sim threshold l processed).flatMap
          fun p => [p.1, p.2]).Nodup ∧
        ∀ x ∈ (mergePassAux sim threshold l processed).flatMap
          fun p => [p.1, p.2], x ∉ processed ∧ x ∈ l.map MGroup.group_id) := by
  intro l
  induction l with
  | nil => intro processed _; simp [mergePassAux]
  | cons a rest ih =>
    intro processed hnodup
    rw [List.map_cons, List.nodup_cons] at hnodup
    obtain ⟨hafresh, hrestnodup⟩ := hnodup
    by_cases hproc : processed.contains a.group_id = true
    · have hstep : mergePassAux sim threshold (a :: rest) processed =
          mergePassAux sim threshold rest processed := by
        simp only [mergePassAux, if_pos hproc]
      rw [hstep]
      obtain ⟨hn, hm⟩ := ih processed hrestnodup
      exact ⟨hn, fun x hx => ⟨(hm x hx).1,
        List.mem_cons_of_mem _ (hm x hx).2⟩⟩
    · cases hf : findMergePartner sim threshold a rest processed with
      | none =>
        have hstep : mergePassAux sim threshold (a :: rest) processed =
            mergePassAux sim threshold rest processed := by
          simp only [mergePassAux, if_neg hproc, hf]
        rw [hstep]
        obtain ⟨hn, hm⟩ := ih processed hrestnodup
        exact ⟨hn, fun x hx => ⟨(hm x hx).1,
          List.mem_cons_of_mem _ (hm x hx).2⟩⟩
      | some b =>
        have hstep : mergePassAux sim threshold (a :: rest) processed =
            (a.group_id, b.group_id) ::
              mergePassAux sim threshold rest
                (a.group_id :: b.group_id :: processed) := by
          simp only [mergePassAux, if_neg hproc, hf]
        rw [hstep]
        have hb : b ∈ rest := List.mem_of_find?_eq_some hf
        have hbid : b.group_id ∈ rest.map MGroup.group_id :=
          List.mem_map_of_mem _ hb
        have hpred := List.find?_some hf
        rw [Bool.and_eq_true] at hpred
        have hbfresh : b.group_id ∉ processed := by simpa using hpred.1
        have haproc : a.group_id ∉ processed := by simpa using hproc
        obtain ⟨hn, hm⟩ := ih (a.group_id :: b.group_id :: processed) hrestnodup
        have hane : a.group_id ≠ b.group_id := fun he => hafresh (he ▸ hbid)
        have hanotT : a.group_id ∉ (mergePassAux sim threshold rest
            (a.group_id :: b.group_id :: processed)).flatMap
            (fun p => [p.1, p.2]) := by
          intro hx
          exact (hm _ hx).1 (List.mem_cons_self _ _)
        have hbnotT : b.group_id ∉ (mergePassAux sim threshold rest
            (a.group_id :: b.group_id :: processed)).flatMap
            (fun p => [p.1, p.2]) := by
          intro hx
          exact (hm _ hx).1 (List.mem_cons_of_mem _ (List.mem_cons_self _ _))
        constructor
        · rw [List.flatMap_cons]
          simp only [List.cons_append, List.nil_append]
          rw [List.nodup_cons, List.nodup_cons]
          refine ⟨?_, hbnotT, hn⟩
          intro hx
          rcases List.mem_cons.mp hx with he | hx
          · exact hane he
          · exact hanotT hx
        · intro x hx
          rw [List.flatMap_cons] at hx
          simp only [List.cons_append, List.nil_append] at hx
          rcases List.mem_cons.mp hx with rfl | hx
          · exact ⟨haproc, List.mem_cons_self _ _⟩
          · rcases List.mem_cons.mp hx with rfl | hx
            · exact ⟨hbfresh, List.mem_cons_of_mem _ hbid⟩
            · refine ⟨?_, List.mem_cons_of_mem _ (hm x hx).2⟩
              intro hmem
              exact (hm x hx).1
                (List.mem_cons_of_mem _ (List.mem_cons_of_mem _ hmem))

/-- Claim C8: in one invocation of the merge pass over groups with
distinct ids, the emitted survivor and deleted ids are pairwise
distinct: every group participates in at most one merge and no id is
both a survivor and a deleted group. -/
theorem merge_pass_each_group_at_most_once (sim : MGroup → MGroup → ℚ)
    (threshold : ℚ) (groups : List MGroup)
    (h : (groups.map MGroup.group_id).Nodup) :
    ((mergePass sim threshold groups).flatMap fun p => [p.1, p.2]).Nodup :=
  (mergePassAux_ids sim threshold groups [] h).1

/-- Claim C5, amended: a hit on (name, type) bumps the mention count by
one, refreshes the last-seen timestamp, returns the existing id, and
REPLACES the stored description by the provided one whenever one is
provided (keeping the stored one only when the argument is absent):
rows of other entities are untouched. -/
theorem insert_entity_hit_updates (entity_name entity_type : String)
    (description : Option String) (now nextId : Nat) (tbl : EntityTable)
    (r : EntityRow)
    (h : tbl.find? (fun s => s.entity_name == entity_name &&
        s.entity_type == entity_type) = some r) :
    (insert_entity entity_name entity_type description now nextId tbl).1 =
      some r.entity_id ∧
    (∃ r' ∈ (insert_entity entity_name entity_type description now nextId tbl).2,
      r'.entity_id = r.entity_id ∧ r'.entity_name = r.entity_name ∧
      r'.entity_type = r.entity_type ∧
      r'.mention_count = r.mention_count + 1 ∧ r'.last_seen = now ∧
      r'.description = description.orElse (fun _ => r.description) ∧
      r'.first_seen = r.first_seen) ∧
    ∀ s ∈ tbl, s.entity_id ≠ r.entity_id →
      s ∈ (insert_entity entity_name entity_type description now nextId tbl).2 := by
  have hres1 :
      (insert_entity entity_name entity_type description now nextId tbl).1 =
      some r.entity_id := by
    simp only [insert_entity, h]
  have hres2 :
      (insert_entity entity_name entity_type description now nextId tbl).2 =
      tbl.map (fun s =>
        if s.entity_id = r.entity_id then
          { s with
            mention_count := s.mention_count + 1
            last_seen := now
            updated_at := now
            description := description.orElse (fun _ => s.description) }
        else s) := by
    simp only [insert_entity, h]
  refine ⟨hres1, ?_, ?_⟩
  · have hrmem : r ∈ tbl := List.mem_of_find?_eq_some h
    rw [hres2]
    refine ⟨{ r with
        mention_count := r.mention_count + 1
        last_seen := now
        updated_at := now
        description := description.orElse (fun _ => r.description) }, ?_, ?_⟩
    · have := List.mem_map_of_mem (fun s =>
        if s.entity_id = r.entity_id then
          { s with
            mention_count := s.mention_count + 1
            last_seen := now
            updated_at := now
            description := description.orElse (fun _ => s.description) }
        else s) hrmem
      simpa using this
    · simp
  · intro s hs hne
    rw [hres2]
    have := List.mem_map_of_mem (fun s =>
      if s.entity_id = r.entity_id then
        { s with
          mention_count := s.mention_count + 1
          last_seen := now
          updated_at := now
          description := description.orElse (fun _ => s.description) }
      else s) hs
    simpa [hne] using this

/-- Claim C2, counterexample: an article with empty entity, company and
CVE lists, published at the same instant as the group latest article,
scores 0.05 (the temporal bonus), not 0, against that group. -/
theorem empty_signature_zero_score_counterexample :
    emptyArticleSig.primary_entities = [] ∧ emptyArticleSig.companies = [] ∧
    emptyArticleSig.cves = [] ∧
    (calculate_article_to_group_similarity emptyArticleSig
      plainGroupSig).composite_score = 1/20 ∧ (1/20 : ℚ) ≠ 0 := by
  refine ⟨rfl, rfl, rfl, ?_, by norm_num⟩
  simp [calculate_article_to_group_similarity, entitySimilarity,
    companySimilarity, cveSimilarity, eventSimilarity, temporalAdjustment,
    sourceBonus, coreEntityBonus, topByKey, emptyArticleSig, plainGroupSig,
    pyMin, pyMax]
  norm_num

/-- Witness for claim C2 at a concrete empty article and one group. -/
theorem empty_signature_create_new_witness :
    (∀ pg ∈ [(plainGroupInfo, plainGroupSig)],
      (calculate_article_to_group_similarity emptyArticleSig
        pg.2).entity_similarity = 0 ∧
      (calculate_article_to_group_similarity emptyArticleSig
        pg.2).company_similarity = 0 ∧
      (calculate_article_to_group_similarity emptyArticleSig
        pg.2).cve_similarity = 0 ∧
      (calculate_article_to_group_similarity emptyArticleSig
        pg.2).composite_score ≤ 18/100) ∧
    processDecision emptyArticleSig [(plainGroupInfo, plainGroupSig)]
      DYNAMIC_THRESHOLD_RULES = Decision.createNew :=
  empty_signature_create_new emptyArticleSig rfl rfl rfl
    [(plainGroupInfo, plainGroupSig)] (by simp [plainGroupSig])

/-- Witness for claim C3 at a concrete article and group pair. -/
theorem similarity_scores_unit_interval_witness :
    (0 ≤ (calculate_article_to_group_similarity richArticleSig
        richGroupSig).entity_similarity ∧
      (calculate_article_to_group_similarity richArticleSig
        richGroupSig).entity_similarity ≤ 1) ∧
    (0 ≤ (calculate_article_to_group_similarity richArticleSig
        richGroupSig).company_similarity ∧
      (calculate_article_to_group_similarity richArticleSig
        richGroupSig).company_similarity ≤ 1) ∧
    (0 ≤ (calculate_article_to_group_similarity richArticleSig
        richGroupSig).cve_similarity ∧
      (calculate_article_to_group_similarity richArticleSig
        richGroupSig).cve_similarity ≤ 1) ∧
    (0 ≤ (calculate_article_to_group_similarity richArticleSig
        richGroupSig).event_similarity ∧
      (calculate_article_to_group_similarity richArticleSig
        richGroupSig).event_similarity ≤ 1) ∧
    (0 ≤ (calculate_article_to_group_similarity richArticleSig
        richGroupSig).composite_score ∧
      (calculate_article_to_group_similarity richArticleSig
        richGroupSig).composite_score ≤ 1) :=
  similarity_scores_unit_interval richArticleSig richGroupSig
    (by intro e he; simp [richArticleSig] at he; rw [he]; norm_num)
    (by intro ge hge; simp [richGroupSig] at hge; rw [hge]; norm_num)
    (by intro ge hge; simp [richGroupSig] at hge; rw [hge]; norm_num)
    (by intro ev hev; simp [richGroupSig] at hev; rw [hev]; norm_num)

/-- Witness for claim C4: attach article 1 to group 7 starting from a
table where it belongs to group 5. -/
theorem add_article_to_group_keeps_single_membership_witness :
    (((add_article_to_group 1 7 [(1, 5)]).2).map Prod.fst).Nodup ∧
    ∀ r ∈ (add_article_to_group 1 7 [(1, 5)]).2, r.1 = 1 → r.2 = 7 :=
  add_article_to_group_keeps_single_membership [(1, 5)] 1 7 (by simp)

/-- Claim C5, counterexample: the stored description of the Acme row is
the non-empty `some "old"`, yet after an upsert carrying `some "new"`
the stored description has become `some "new"` - it was not left
unchanged. -/
theorem insert_entity_description_counterexample :
    acmeRow.description = some "old" ∧
    (insert_entity "Acme" "organization" (some "new") 5 2 [acmeRow]).2 =
      [{ entity_id := 1
         entity_name := "Acme"
         entity_type := "organization"
         description := some "new"
         mention_count := 4
         first_seen := 0
         last_seen := 5
         updated_at := 5 }] ∧
    (some "new" : Option String) ≠ some "old" := by
  refine ⟨rfl, ?_, by simp⟩
  simp [insert_entity, acmeRow, List.find?, Option.orElse]

/-- Witness for claim C5 at the concrete Acme table. -/
theorem insert_entity_hit_updates_witness :
    (insert_entity "Acme" "organization" (some "new") 5 2 [acmeRow]).1 =
      some acmeRow.entity_id ∧
    (∃ r' ∈ (insert_entity "Acme" "organization" (some "new") 5 2
        [acmeRow]).2,
      r'.entity_id = acmeRow.entity_id ∧ r'.entity_name = acmeRow.entity_name ∧
      r'.entity_type = acmeRow.entity_type ∧
      r'.mention_count = acmeRow.mention_count + 1 ∧ r'.last_seen = 5 ∧
      r'.description = (some "new" : Option String).orElse
        (fun _ => acmeRow.description) ∧
      r'.first_seen = acmeRow.first_seen) ∧
    ∀ s ∈ [acmeRow], s.entity_id ≠ acmeRow.entity_id →
      s ∈ (insert_entity "Acme" "organization" (some "new") 5 2 [acmeRow]).2 :=
  insert_entity_hit_updates "Acme" "organization" (some "new") 5 2 [acmeRow]
    acmeRow (by simp [acmeRow, List.find?])

/-- Witness for claim C6: one hour of difference gives the bonus
0.05 (1 - 1/48). -/
theorem temporal_adjustment_formula_and_bound_witness :
    |(calculate_article_to_group_similarity richArticleSig
      richGroupSig).temporal_adjustment| ≤ 5/100 ∧
    (calculate_article_to_group_similarity richArticleSig
      richGroupSig).temporal_adjustment = (5/100) * (1 - 1/48) := by
  refine ⟨(temporal_adjustment_formula_and_bound richArticleSig
    richGroupSig).1, ?_⟩
  have h := (temporal_adjustment_formula_and_bound richArticleSig
    richGroupSig).2 3600 0 rfl rfl
  rw [h]
  have habs : |(3600:ℚ) - 0| = 3600 := by
    rw [sub_zero]
    exact abs_of_pos (by norm_num)
  rw [habs]
  norm_num

/-- Claim C1, counterexample: with the pair (mgA, mgB) in iteration
order - mgA having fewer articles, a newer creation time and the larger
id - the pass keeps mgA (id 2) and deletes mgB (id 1), while the rule
of the claim selects mgB, which has the larger membership. -/
theorem merge_survivor_rule_counterexample :
    mergePass simConst (60/100) [mgA, mgB] = [(2, 1)] ∧
    specSurvivorId mgA mgB = 1 ∧ (2 : Nat) ≠ 1 := by
  refine ⟨?_, by decide, by decide⟩
  simp [mergePass, mergePassAux, findMergePartner, simConst, mgA, mgB]
  norm_num

/-- Witness for claim C1 at the concrete merged pair. -/
theorem merge_survivor_first_witness :
    ∃ x y : MGroup, [x, y].Sublist [mgA, mgB] ∧
      ((2 : Nat), (1 : Nat)) = (x.group_id, y.group_id) ∧
      60/100 ≤ simConst x y :=
  merge_survivor_first_in_iteration_order simConst (60/100) [mgA, mgB] (2, 1)
    (by simp [mergePass, mergePassAux, findMergePartner, simConst, mgA, mgB]
        norm_num)

/-- Witness for claim C8 at the concrete two-group pass. -/
theorem merge_pass_each_group_at_most_once_witness :
    ((mergePass simConst (60/100) [mgA, mgB]).flatMap
      fun p => [p.1, p.2]).Nodup :=
  merge_pass_each_group_at_most_once simConst (60/100) [mgA, mgB] (by decide)

/-- Witness for claim C10 at a concrete table where article 1 is
already in group 7. -/
theorem add_article_to_group_idempotent_witness :
    add_article_to_group 1 7 [(1, 7)] = (true, [(1, 7)]) ∧
    add_article_to_group 1 7 (add_article_to_group 1 7 [(1, 7)]).2 =
      add_article_to_group 1 7 [(1, 7)] :=
  ⟨(add_article_to_group_idempotent [(1, 7)] 1 7).1 (by simp) (by simp),
   (add_article_to_group_idempotent [(1, 7)] 1 7).2⟩

end NewsGrouping
